import Mathlib

/-!
Verification of the Triple SMA signal engine and the connection probe of the
Triple-SMA-Indicator notebooks.

The model below is a shallow embedding of the two components the specification
documents:

* `calculate_triple_sma_enhanced` embeds the function of the same name from
  `improved-colab-notebook.py` (the realisation of the spec's `computeSignals`):
  the raw-length check, the three invalid-price row filters, the sort by
  timestamp, the three rolling means with a strict minimum-period requirement,
  the signal masks, `position`/`returns`/`strategy_returns`, and the final
  quality report.  Prices are rationals (the Python floats); a pandas `NaN`
  cell is `Option.none`.  The two places where the Python body indexes an
  empty frame (`df['date'].iloc[0]` on an empty filtered frame, and
  `valid_sma_data.index[0]` when no row has all three SMAs) are modelled as
  explicit error results, since there the Python function raises an
  `IndexError` instead of returning.  The plotting-only indicator columns
  (`volatility`, `momentum`, `drawdown`) are diagnostic extras computed after
  the modelled columns and never read by them, and are omitted.

* `test_network_connection` embeds `ConnectionManager.test_network_connection`:
  the socket outcome (success with a latency, name-resolution failure, timeout,
  other fault) is an explicit input, the mutable `connection_history` list is
  passed and returned explicitly.

* `lru_cache_call` embeds the `functools.lru_cache(maxsize=32)` wrapper placed
  on the calculator: an association-list cache keyed by the exact input tuple
  and the three window sizes, with move-to-front on hit and eviction beyond 32
  entries on miss.
-/

/-- One OHLCV price bar, as appended by `historicalData`.  The Python `open`
column is `open_` (`open` is a Lean keyword); the timestamp is an abstract
linearly ordered value. -/
structure Bar where
  date : Int
  open_ : ℚ
  high : ℚ
  low : ℚ
  close : ℚ
  volume : Int
  deriving DecidableEq, Repr

instance : Inhabited Bar := ⟨⟨0, 0, 0, 0, 0, 0⟩⟩

/-- First filter mask: `(df['open'] > 0) & (df['high'] > 0) & (df['low'] > 0) & (df['close'] > 0)`. -/
def positivePrices (b : Bar) : Bool :=
  decide (0 < b.open_) && decide (0 < b.high) && decide (0 < b.low) && decide (0 < b.close)

/-- Second filter mask: `df['high'] >= df['low']`. -/
def highGeLow (b : Bar) : Bool := decide (b.low ≤ b.high)

/-- Third filter mask: `(df['close'] <= df['high']) & (df['close'] >= df['low'])`. -/
def closeInRange (b : Bar) : Bool := decide (b.close ≤ b.high) && decide (b.low ≤ b.close)

/-- The three successive invalid-price row filters of the enhanced calculator. -/
def filterValid (data : List Bar) : List Bar :=
  ((data.filter positivePrices).filter highGeLow).filter closeInRange

/-- The conjunction of the three row-validity masks (the Bar price invariant). -/
def validBar (b : Bar) : Bool := positivePrices b && highGeLow b && closeInRange b

/-- Insert a bar into a date-sorted list, keeping it sorted. -/
def insertByDate (b : Bar) : List Bar → List Bar
  | [] => [b]
  | c :: cs => if b.date ≤ c.date then b :: c :: cs else c :: insertByDate b cs

/-- Sort bars by ascending timestamp: models `df.set_index('date').sort_index()`. -/
def sortByDate : List Bar → List Bar
  | [] => []
  | b :: bs => insertByDate b (sortByDate bs)

/-- `series.rolling(window=w, min_periods=w).mean()`: entry `i` is the mean of
the `w` trailing observations when at least `w` are available, `NaN` (`none`)
otherwise.  (With an integer window, pandas' default `min_periods` is already
the window size, so this is also the optimized notebook's `rolling(window=w).mean()`.) -/
def rollingMean (w : Nat) (xs : List ℚ) : List (Option ℚ) :=
  (List.range xs.length).map (fun i =>
    if w ≤ i + 1 then some ((((xs.take (i + 1)).drop (i + 1 - w)).sum) / w) else none)

/-- `series.pct_change()`: entry `0` is `NaN`; entry `i` is `xs[i]/xs[i-1] - 1`.
(The filtered closes are strictly positive, so the divisor is never zero where
this is used.) -/
def pctChange (xs : List ℚ) : List (Option ℚ) :=
  (List.range xs.length).map (fun i =>
    if i = 0 then none else some (xs.getD i 0 / xs.getD (i - 1) 0 - 1))

/-- The per-row signal of the two boolean masks
`uptrend = (close > sma20) & (sma20 > sma50) & (sma50 > sma200)` and
`downtrend = (close < sma20) & (sma20 < sma50) & (sma50 < sma200)`:
`1` on `uptrend`, `-1` on `downtrend`, `0` otherwise.  A comparison against a
`NaN` SMA cell is false, so any undefined SMA forces `0`. -/
def smaSignal (c : ℚ) (s20 s50 s200 : Option ℚ) : Int :=
  match s20, s50, s200 with
  | some a, some b, some d =>
    if a < c ∧ b < a ∧ d < b then 1
    else if c < a ∧ a < b ∧ b < d then -1
    else 0
  | _, _, _ => 0

/-- The whole `signal` column. -/
def signalCol (closes : List ℚ) (s20 s50 s200 : List (Option ℚ)) : List Int :=
  (List.range closes.length).map (fun i =>
    smaSignal (closes.getD i 0) (s20.getD i none) (s50.getD i none) (s200.getD i none))

/-- `df['signal'].shift(1)`: entry `0` is `NaN`, entry `i` is `signal[i-1]`. -/
def shiftSignal (signals : List Int) : List (Option Int) :=
  (List.range signals.length).map (fun i =>
    if i = 0 then none else some (signals.getD (i - 1) 0))

/-- `df['strategy_returns'] = (df['signal'].shift(1) * df['returns']).fillna(0)`:
the cellwise product of the shifted signal and the returns column, with any
`NaN` factor turning the cell into `0`. -/
def strategyReturns (signals : List Int) (rets : List (Option ℚ)) : List ℚ :=
  List.zipWith (fun s r =>
    match s, r with
    | some sv, some rv => (sv : ℚ) * rv
    | _, _ => 0) (shiftSignal signals) rets

/-- One row of the enriched table returned by the calculator (the spec's
`SignalRow`): the closing price, the three SMA columns, and the derived
`signal`, `position`, `returns` and `strategy_returns` columns. -/
structure SignalRow where
  date : Int
  close : ℚ
  sma20 : Option ℚ
  sma50 : Option ℚ
  sma200 : Option ℚ
  signal : Int
  position : Option Int
  returns : Option ℚ
  strategy_returns : ℚ
  deriving DecidableEq, Repr

/-- Build the enriched table from the filtered, date-sorted bars. -/
def buildTable (sorted : List Bar) (p20 p50 p200 : Nat) : List SignalRow :=
  let closes := sorted.map Bar.close
  let s20 := rollingMean p20 closes
  let s50 := rollingMean p50 closes
  let s200 := rollingMean p200 closes
  let signals := signalCol closes s20 s50 s200
  let rets := pctChange closes
  let srets := strategyReturns signals rets
  (List.range sorted.length).map (fun i =>
    { date := (sorted.getD i default).date
      close := closes.getD i 0
      sma20 := s20.getD i none
      sma50 := s50.getD i none
      sma200 := s200.getD i none
      signal := signals.getD i 0
      position := if i = 0 then none else some (signals.getD i 0 - signals.getD (i - 1) 0)
      returns := rets.getD i none
      strategy_returns := srets.getD i 0 })

/-- The ways `calculate_triple_sma_enhanced` can fail to return a table:
the explicit insufficient-data `ValueError`, the `IndexError` from
`df['date'].iloc[0]` when every row was filtered out, and the `IndexError`
from `valid_sma_data.index[0]` in the quality report when no row has all
three SMAs defined. -/
inductive CalcError where
  | insufficientData
  | emptyData
  | emptyValidRange
  deriving DecidableEq, Repr

/-- A row of the table has all three SMA cells defined: membership in
`valid_sma_data = df.dropna(subset=['sma20', 'sma50', 'sma200'])`. -/
def hasAllSMAs (r : SignalRow) : Bool := r.sma20.isSome && r.sma50.isSome && r.sma200.isSome

/-- `calculate_triple_sma_enhanced(data_tuple, sma20_period, sma50_period, sma200_period)`
from the improved notebook: raw-length check, invalid-row filters, the
empty-frame date access, sort, SMA/signal/returns columns, and the quality
report's access to the first row of `valid_sma_data`. -/
def calculate_triple_sma_enhanced (data : List Bar) (p20 p50 p200 : Nat) :
    Except CalcError (List SignalRow) :=
  if data.length < p200 then Except.error CalcError.insufficientData
  else
    let filtered := filterValid data
    if filtered.isEmpty then Except.error CalcError.emptyData
    else
      let rows := buildTable (sortByDate filtered) p20 p50 p200
      if (rows.filter hasAllSMAs).isEmpty then Except.error CalcError.emptyValidRange
      else Except.ok rows

/-- The cache key of the memoized calculator: the exact input tuple and the
three window sizes. -/
structure SmaKey where
  data : List Bar
  p20 : Nat
  p50 : Nat
  p200 : Nat
  deriving DecidableEq, Repr

/-- The uncached computation behind the memoized calculator. -/
def runKey (k : SmaKey) : Except CalcError (List SignalRow) :=
  calculate_triple_sma_enhanced k.data k.p20 k.p50 k.p200

/-- The `functools.lru_cache` store: most recently used entry first. -/
abbrev SmaCache := List (SmaKey × Except CalcError (List SignalRow))

/-- Cache lookup by key equality. -/
def cacheLookup (cache : SmaCache) (k : SmaKey) :
    Option (Except CalcError (List SignalRow)) :=
  match cache.find? (fun e => decide (e.1 = k)) with
  | some e => some e.2
  | none => none

/-- One call through the `functools.lru_cache(maxsize=32)` wrapper: on a hit
the cached value is returned and the entry moves to the most-recently-used
position; on a miss the function runs, the result is stored, and the store is
trimmed to 32 entries. -/
def lru_cache_call (cache : SmaCache) (k : SmaKey) :
    Except CalcError (List SignalRow) × SmaCache :=
  match cacheLookup cache k with
  | some r => (r, (k, r) :: cache.filter (fun e => !(decide (e.1 = k))))
  | none => (runKey k, ((k, runKey k) :: cache).take 32)

/-- A cache state in which every stored entry is the value the uncached
computation produces for its key.  The empty cache is coherent, and
`lru_cache_call` preserves coherence. -/
def CacheCoherent (cache : SmaCache) : Prop :=
  ∀ k r, (k, r) ∈ cache → r = runKey k

/-- The observable outcome of `socket.create_connection` inside
`test_network_connection`: success after a measured latency, a
`socket.gaierror`, a `socket.timeout`, or any other exception. -/
inductive SockOutcome where
  | success (latency : ℚ)
  | gaierror (msg : String)
  | sockTimeout
  | otherErr (msg : String)
  deriving DecidableEq, Repr

/-- Whether the socket outcome is the success branch. -/
def isSuccessOutcome : SockOutcome → Bool
  | SockOutcome.success _ => true
  | _ => false

/-- One record of `ConnectionManager.connection_history`: success entries
carry a latency, failure entries an error string. -/
structure ConnAttempt where
  timestamp : Nat
  host : String
  port : Nat
  status : String
  latency : Option ℚ
  error : Option String
  deriving DecidableEq, Repr

/-- `ConnectionManager.test_network_connection(host, port, timeout)`: the
history list is the explicit state, `now` the wall clock at the attempt, and
the socket outcome an explicit input.  Every branch appends exactly one
history entry and returns an `(ok, message)` pair; no branch raises. -/
def test_network_connection (history : List ConnAttempt) (host : String)
    (port : Nat) (tmo : Nat) (now : Nat) (outcome : SockOutcome) :
    List ConnAttempt × Bool × String :=
  match outcome with
  | SockOutcome.success lat =>
      (history ++ [⟨now, host, port, "success", some lat, none⟩], true,
        "Connected in " ++ toString lat ++ "s")
  | SockOutcome.gaierror m =>
      (history ++ [⟨now, host, port, "dns_error", none, some m⟩], false,
        "DNS resolution failed: " ++ m)
  | SockOutcome.sockTimeout =>
      (history ++ [⟨now, host, port, "timeout", none,
          some ("Connection timeout after " ++ toString tmo ++ "s")⟩], false,
        "Connection timeout after " ++ toString tmo ++ "s")
  | SockOutcome.otherErr m =>
      (history ++ [⟨now, host, port, "error", none, some m⟩], false,
        "Connection failed: " ++ m)

/-- The diagnostic message prefix each failure kind is reported with. -/
def failureKindPrefix : SockOutcome → Option String
  | SockOutcome.success _ => none
  | SockOutcome.gaierror _ => some "DNS resolution failed: "
  | SockOutcome.sockTimeout => some "Connection timeout after "
  | SockOutcome.otherErr _ => some "Connection failed: "

/-! ### Concrete sample inputs used by the witnesses -/

instance : Inhabited SignalRow := ⟨⟨0, 0, none, none, none, 0, none, none, 0⟩⟩

/-- A one-bar valid sample series. -/
def dataA : List Bar := [⟨0, 1, 1, 1, 1, 0⟩]

/-- The table the calculator returns on `dataA` with windows `1, 1, 1`. -/
def rowsA : List SignalRow := [⟨0, 1, some 1, some 1, some 1, 0, none, none, 0⟩]

/-- A two-bar valid sample series given out of timestamp order. -/
def dataB : List Bar := [⟨1, 1, 1, 1, 1, 0⟩, ⟨0, 2, 2, 2, 2, 0⟩]

/-- The table the calculator returns on `dataB` with windows `1, 1, 1`. -/
def rowsB : List SignalRow :=
  [⟨0, 2, some 2, some 2, some 2, 0, none, none, 0⟩,
   ⟨1, 1, some 1, some 1, some 1, 0, some 0, some (-(1/2)), 0⟩]

/-- A two-bar valid sample series in order, used with a `p200` window of 2. -/
def dataC : List Bar := [⟨0, 1, 1, 1, 1, 0⟩, ⟨1, 1, 1, 1, 1, 0⟩]

/-- The table the calculator returns on `dataC` with windows `1, 1, 2`. -/
def rowsC : List SignalRow :=
  [⟨0, 1, some 1, some 1, none, 0, none, none, 0⟩,
   ⟨1, 1, some 1, some 1, some 1, 0, some 0, some 0, 0⟩]

/-- Two raw bars of which only the first is price-valid (the second has a
negative open). -/
def dataE : List Bar := [⟨0, 1, 1, 1, 1, 0⟩, ⟨1, -1, 1, 1, 1, 0⟩]

/-- A 200-bar valid sample series. -/
def dataD : List Bar := (List.range 200).map (fun (i : Nat) => ⟨(i : Int), 1, 1, 1, 1, 0⟩)

/-- The cache key used in the memoization witness. -/
def keyA : SmaKey := ⟨dataA, 1, 1, 1⟩


/-! ### Indexing helpers for the column definitions -/

theorem getD_range_map {α : Type} (n : Nat) (f : Nat → α) (d : α) (i : Nat) (h : i < n) :
    ((List.range n).map f).getD i d = f i := by
  have hh : i < ((List.range n).map f).length := by simpa
  rw [List.getD_eq_getElem _ _ hh]
  simp

theorem getElem_range_map {α : Type} (n : Nat) (f : Nat → α) (i : Nat)
    (h : i < ((List.range n).map f).length) :
    ((List.range n).map f)[i] = f i := by
  have hi : i < n := by simpa using h
  have h2 := getD_range_map n f (f 0) i hi
  rw [List.getD_eq_getElem _ _ h] at h2
  exact h2

theorem rollingMean_length (w : Nat) (xs : List ℚ) :
    (rollingMean w xs).length = xs.length := by simp [rollingMean]

theorem pctChange_length (xs : List ℚ) : (pctChange xs).length = xs.length := by
  simp [pctChange]

theorem signalCol_length (closes : List ℚ) (s20 s50 s200 : List (Option ℚ)) :
    (signalCol closes s20 s50 s200).length = closes.length := by simp [signalCol]

theorem shiftSignal_length (signals : List Int) :
    (shiftSignal signals).length = signals.length := by simp [shiftSignal]

theorem strategyReturns_length (signals : List Int) (rets : List (Option ℚ)) :
    (strategyReturns signals rets).length = min signals.length rets.length := by
  simp [strategyReturns, shiftSignal_length]

theorem buildTable_length (sorted : List Bar) (p20 p50 p200 : Nat) :
    (buildTable sorted p20 p50 p200).length = sorted.length := by
  simp [buildTable]

theorem rollingMean_getD (w : Nat) (xs : List ℚ) (i : Nat) (h : i < xs.length) :
    (rollingMean w xs).getD i none =
      if w ≤ i + 1 then some ((((xs.take (i + 1)).drop (i + 1 - w)).sum) / w) else none :=
  getD_range_map _ _ _ _ h

theorem rollingMean_getD_isSome (w : Nat) (xs : List ℚ) (i : Nat) (h : i < xs.length) :
    ((rollingMean w xs).getD i none).isSome ↔ w ≤ i + 1 := by
  rw [rollingMean_getD w xs i h]
  split <;> simp_all

theorem rollingMean_getD_none (w : Nat) (xs : List ℚ) (i : Nat) (h : i < xs.length)
    (hw : i + 1 < w) : (rollingMean w xs).getD i none = none := by
  rw [rollingMean_getD w xs i h]
  simp [Nat.not_le.mpr hw]

theorem pctChange_getD (xs : List ℚ) (i : Nat) (h : i < xs.length) :
    (pctChange xs).getD i none =
      if i = 0 then none else some (xs.getD i 0 / xs.getD (i - 1) 0 - 1) :=
  getD_range_map _ _ _ _ h

theorem signalCol_getD (closes : List ℚ) (s20 s50 s200 : List (Option ℚ)) (i : Nat)
    (h : i < closes.length) :
    (signalCol closes s20 s50 s200).getD i 0 =
      smaSignal (closes.getD i 0) (s20.getD i none) (s50.getD i none) (s200.getD i none) :=
  getD_range_map _ _ _ _ h

theorem strategyReturns_getD_zero (signals : List Int) (rets : List (Option ℚ))
    (h1 : 0 < signals.length) (h2 : 0 < rets.length) :
    (strategyReturns signals rets).getD 0 0 = 0 := by
  have hl : 0 < (strategyReturns signals rets).length := by
    rw [strategyReturns_length]; omega
  have hsl : 0 < (shiftSignal signals).length := by rw [shiftSignal_length]; omega
  rw [List.getD_eq_getElem _ _ hl]
  simp only [strategyReturns]
  rw [List.getElem_zipWith]
  have hs : (shiftSignal signals)[0] = none := by
    simp only [shiftSignal]
    rw [getElem_range_map]
    simp
  rw [hs]

theorem strategyReturns_pct_getD_succ (signals : List Int) (closes : List ℚ) (i : Nat)
    (h1 : i + 1 < signals.length) (h2 : i + 1 < closes.length) :
    (strategyReturns signals (pctChange closes)).getD (i + 1) 0 =
      (signals.getD i 0 : ℚ) * (closes.getD (i + 1) 0 / closes.getD i 0 - 1) := by
  have hl : i + 1 < (strategyReturns signals (pctChange closes)).length := by
    rw [strategyReturns_length, pctChange_length]; omega
  have hsl : i + 1 < (shiftSignal signals).length := by rw [shiftSignal_length]; omega
  have hpl : i + 1 < (pctChange closes).length := by rw [pctChange_length]; omega
  rw [List.getD_eq_getElem _ _ hl]
  simp only [strategyReturns]
  rw [List.getElem_zipWith]
  have hs : (shiftSignal signals)[i + 1] = some (signals.getD i 0) := by
    simp only [shiftSignal]
    rw [getElem_range_map]
    simp
  have hr : (pctChange closes)[i + 1] =
      some (closes.getD (i + 1) 0 / closes.getD i 0 - 1) := by
    simp only [pctChange]
    rw [getElem_range_map]
    simp
  rw [hs, hr]

theorem buildTable_getElem (sorted : List Bar) (p20 p50 p200 : Nat) (i : Nat)
    (h : i < (buildTable sorted p20 p50 p200).length) :
    (buildTable sorted p20 p50 p200)[i] =
      { date := (sorted.getD i default).date
        close := (sorted.map Bar.close).getD i 0
        sma20 := (rollingMean p20 (sorted.map Bar.close)).getD i none
        sma50 := (rollingMean p50 (sorted.map Bar.close)).getD i none
        sma200 := (rollingMean p200 (sorted.map Bar.close)).getD i none
        signal := (signalCol (sorted.map Bar.close)
            (rollingMean p20 (sorted.map Bar.close))
            (rollingMean p50 (sorted.map Bar.close))
            (rollingMean p200 (sorted.map Bar.close))).getD i 0
        position := if i = 0 then none else
          some ((signalCol (sorted.map Bar.close)
              (rollingMean p20 (sorted.map Bar.close))
              (rollingMean p50 (sorted.map Bar.close))
              (rollingMean p200 (sorted.map Bar.close))).getD i 0 -
            (signalCol (sorted.map Bar.close)
              (rollingMean p20 (sorted.map Bar.close))
              (rollingMean p50 (sorted.map Bar.close))
              (rollingMean p200 (sorted.map Bar.close))).getD (i - 1) 0)
        returns := (pctChange (sorted.map Bar.close)).getD i none
        strategy_returns := (strategyReturns
            (signalCol (sorted.map Bar.close)
              (rollingMean p20 (sorted.map Bar.close))
              (rollingMean p50 (sorted.map Bar.close))
              (rollingMean p200 (sorted.map Bar.close)))
            (pctChange (sorted.map Bar.close))).getD i 0 } := by
  simp only [buildTable] at h ⊢
  rw [getElem_range_map _ _ _ h]

/-! ### Sorting lemmas -/

theorem insertByDate_length (b : Bar) (l : List Bar) :
    (insertByDate b l).length = l.length + 1 := by
  induction l with
  | nil => rfl
  | cons c cs ih =>
    simp only [insertByDate]
    split <;> simp [ih]

theorem sortByDate_length (l : List Bar) : (sortByDate l).length = l.length := by
  induction l with
  | nil => rfl
  | cons b bs ih => simp [sortByDate, insertByDate_length, ih]

theorem mem_insertByDate (x b : Bar) (l : List Bar) :
    x ∈ insertByDate b l ↔ x = b ∨ x ∈ l := by
  induction l with
  | nil => simp [insertByDate]
  | cons c cs ih =>
    simp only [insertByDate]
    split <;> (simp [ih]; try tauto)

theorem insertByDate_sorted (b : Bar) (l : List Bar)
    (h : l.Sorted (fun x y => x.date ≤ y.date)) :
    (insertByDate b l).Sorted (fun x y => x.date ≤ y.date) := by
  induction l with
  | nil => simp [insertByDate]
  | cons c cs ih =>
    rw [List.sorted_cons] at h
    obtain ⟨hc, hcs⟩ := h
    simp only [insertByDate]
    split
    case isTrue hbc =>
      rw [List.sorted_cons]
      refine ⟨?_, ?_⟩
      · intro x hx
        rcases List.mem_cons.mp hx with rfl | hx
        · exact hbc
        · exact le_trans hbc (hc x hx)
      · rw [List.sorted_cons]
        exact ⟨hc, hcs⟩
    case isFalse hbc =>
      rw [List.sorted_cons]
      refine ⟨?_, ih hcs⟩
      intro x hx
      rcases (mem_insertByDate x b cs).mp hx with rfl | hx
      · omega
      · exact hc x hx

theorem sortByDate_sorted (l : List Bar) :
    (sortByDate l).Sorted (fun x y => x.date ≤ y.date) := by
  induction l with
  | nil => simp [sortByDate]
  | cons b bs ih => exact insertByDate_sorted b _ ih

theorem buildTable_map_date (sorted : List Bar) (p20 p50 p200 : Nat) :
    (buildTable sorted p20 p50 p200).map SignalRow.date = sorted.map Bar.date := by
  apply List.ext_getElem
  · simp [buildTable_length]
  · intro i h1 h2
    simp only [List.getElem_map]
    rw [buildTable_getElem]
    have hi : i < sorted.length := by simpa using h2
    rw [List.getD_eq_getElem sorted default hi]

/-! ### Case analysis of the signal value -/

theorem smaSignal_cases (c : ℚ) (s20 s50 s200 : Option ℚ) :
    smaSignal c s20 s50 s200 = 1 ∨ smaSignal c s20 s50 s200 = 0 ∨
      smaSignal c s20 s50 s200 = -1 := by
  rcases s20 with _ | a
  · simp [smaSignal]
  rcases s50 with _ | b
  · simp [smaSignal]
  rcases s200 with _ | d
  · simp [smaSignal]
  simp only [smaSignal]
  split_ifs <;> simp

theorem smaSignal_eq_one_iff (c : ℚ) (s20 s50 s200 : Option ℚ) :
    smaSignal c s20 s50 s200 = 1 ↔
      ∃ a b d, s20 = some a ∧ s50 = some b ∧ s200 = some d ∧
        a < c ∧ b < a ∧ d < b := by
  rcases s20 with _ | a
  · simp [smaSignal]
  rcases s50 with _ | b
  · simp [smaSignal]
  rcases s200 with _ | d
  · simp [smaSignal]
  simp only [smaSignal, Option.some.injEq]
  constructor
  · intro h
    split_ifs at h with h1 h2
    · exact ⟨a, b, d, rfl, rfl, rfl, h1⟩
    · exact absurd h (by decide)
  · rintro ⟨a2, b2, d2, rfl, rfl, rfl, hlt⟩
    rw [if_pos hlt]

theorem smaSignal_eq_negone_iff (c : ℚ) (s20 s50 s200 : Option ℚ) :
    smaSignal c s20 s50 s200 = -1 ↔
      ∃ a b d, s20 = some a ∧ s50 = some b ∧ s200 = some d ∧
        c < a ∧ a < b ∧ b < d := by
  rcases s20 with _ | a
  · simp [smaSignal]
  rcases s50 with _ | b
  · simp [smaSignal]
  rcases s200 with _ | d
  · simp [smaSignal]
  simp only [smaSignal, Option.some.injEq]
  constructor
  · intro h
    split_ifs at h with h1 h2
    · exact ⟨a, b, d, rfl, rfl, rfl, h2⟩
  · rintro ⟨a2, b2, d2, rfl, rfl, rfl, hlt⟩
    have hn1 : ¬(a < c ∧ b < a ∧ d < b) := by
      rintro ⟨_, hba, _⟩
      exact absurd hlt.2.1 (not_lt.mpr hba.le)
    rw [if_neg hn1, if_pos hlt]

theorem smaSignal_none (c : ℚ) (s20 s50 : Option ℚ) :
    smaSignal c s20 s50 none = 0 := by
  rcases s20 with _ | a <;> rcases s50 with _ | b <;> simp [smaSignal]

/-! ### Unfolding the calculator on a successful run -/

theorem enhanced_ok_eq (data : List Bar) (p20 p50 p200 : Nat) (rows : List SignalRow)
    (hok : calculate_triple_sma_enhanced data p20 p50 p200 = Except.ok rows) :
    rows = buildTable (sortByDate (filterValid data)) p20 p50 p200 := by
  simp only [calculate_triple_sma_enhanced] at hok
  split_ifs at hok
  all_goals simp_all

/-! ### Claim theorems for the signal table -/

/-- C1: In every row of the table returned by the calculator, the signal is one
of `1`, `0`, `-1`; it is `1` exactly when all three SMAs are defined and
`close > sma20 > sma50 > sma200` holds strictly on that row, `-1` exactly when
`close < sma20 < sma50 < sma200`, and `0` in every other case (in particular
whenever any SMA is undefined, since neither characterisation can then hold). -/
theorem C1_signal_trichotomy (data : List Bar) (p20 p50 p200 : Nat)
    (rows : List SignalRow)
    (hok : calculate_triple_sma_enhanced data p20 p50 p200 = Except.ok rows)
    (i : Nat) (h : i < rows.length) :
    (rows[i].signal = 1 ∨ rows[i].signal = 0 ∨ rows[i].signal = -1) ∧
    (rows[i].signal = 1 ↔ ∃ a b d, rows[i].sma20 = some a ∧ rows[i].sma50 = some b ∧
      rows[i].sma200 = some d ∧ a < rows[i].close ∧ b < a ∧ d < b) ∧
    (rows[i].signal = -1 ↔ ∃ a b d, rows[i].sma20 = some a ∧ rows[i].sma50 = some b ∧
      rows[i].sma200 = some d ∧ rows[i].close < a ∧ a < b ∧ b < d) := by
  have hrows := enhanced_ok_eq data p20 p50 p200 rows hok
  subst hrows
  have hlen : i < ((sortByDate (filterValid data)).map Bar.close).length := by
    rw [List.length_map]
    have h2 := h
    rw [buildTable_length] at h2
    exact h2
  rw [buildTable_getElem _ _ _ _ _ h]
  dsimp only
  rw [signalCol_getD _ _ _ _ _ hlen]
  exact ⟨smaSignal_cases _ _ _ _, smaSignal_eq_one_iff _ _ _ _,
    smaSignal_eq_negone_iff _ _ _ _⟩

/-- C2: In the returned table the first row's strategy return is `0`, and every
later row `t = i + 1` has strategy return `signal[t-1] * (close[t]/close[t-1] - 1)`
(the undefined shifted factor of row 0 having been replaced by `0`). -/
theorem C2_strategy_return_lag (data : List Bar) (p20 p50 p200 : Nat)
    (rows : List SignalRow)
    (hok : calculate_triple_sma_enhanced data p20 p50 p200 = Except.ok rows) :
    (∀ h0 : 0 < rows.length, rows[0].strategy_returns = 0) ∧
    (∀ i (h1 : i + 1 < rows.length),
      rows[i + 1].strategy_returns =
        (rows[i].signal : ℚ) * (rows[i + 1].close / rows[i].close - 1)) := by
  have hrows := enhanced_ok_eq data p20 p50 p200 rows hok
  subst hrows
  constructor
  · intro h0
    have hn : 0 < (sortByDate (filterValid data)).length := by
      have h2 := h0
      rw [buildTable_length] at h2
      exact h2
    rw [buildTable_getElem _ _ _ _ _ h0]
    dsimp only
    apply strategyReturns_getD_zero
    · rw [signalCol_length, List.length_map]
      exact hn
    · rw [pctChange_length, List.length_map]
      exact hn
  · intro i h1
    have hn : i + 1 < (sortByDate (filterValid data)).length := by
      have h2 := h1
      rw [buildTable_length] at h2
      exact h2
    have hi : i < (buildTable (sortByDate (filterValid data)) p20 p50 p200).length := by
      rw [buildTable_length]; omega
    rw [buildTable_getElem _ _ _ _ _ h1, buildTable_getElem _ _ _ _ _ hi]
    dsimp only
    rw [strategyReturns_pct_getD_succ]
    · rw [signalCol_length, List.length_map]
      exact hn
    · rw [List.length_map]
      exact hn

/-- C4: An SMA cell of the returned table is defined exactly when the full
window of observations is available up to and including its row: `sma20[i]`
is defined iff `p20 ≤ i + 1`, and likewise for `sma50`/`sma200`; in
particular the first `window - 1` rows of each column are undefined and no
partial-window average is ever produced. -/
theorem C4_full_window_only (data : List Bar) (p20 p50 p200 : Nat)
    (rows : List SignalRow)
    (hok : calculate_triple_sma_enhanced data p20 p50 p200 = Except.ok rows)
    (i : Nat) (h : i < rows.length) :
    (rows[i].sma20.isSome ↔ p20 ≤ i + 1) ∧
    (rows[i].sma50.isSome ↔ p50 ≤ i + 1) ∧
    (rows[i].sma200.isSome ↔ p200 ≤ i + 1) := by
  have hrows := enhanced_ok_eq data p20 p50 p200 rows hok
  subst hrows
  have hlen : i < ((sortByDate (filterValid data)).map Bar.close).length := by
    rw [List.length_map]
    have h2 := h
    rw [buildTable_length] at h2
    exact h2
  rw [buildTable_getElem _ _ _ _ _ h]
  dsimp only
  exact ⟨rollingMean_getD_isSome _ _ _ hlen, rollingMean_getD_isSome _ _ _ hlen,
    rollingMean_getD_isSome _ _ _ hlen⟩

/-- C5: The calculator sorts the (filtered) bars by timestamp before any SMA
or signal computation, so whatever the order of the input series, the rows of
any returned table are in ascending timestamp order. -/
theorem C5_rows_sorted (data : List Bar) (p20 p50 p200 : Nat)
    (rows : List SignalRow)
    (hok : calculate_triple_sma_enhanced data p20 p50 p200 = Except.ok rows) :
    (rows.map SignalRow.date).Sorted (· ≤ ·) := by
  have hrows := enhanced_ok_eq data p20 p50 p200 rows hok
  subst hrows
  rw [buildTable_map_date]
  exact List.pairwise_map.mpr (sortByDate_sorted (filterValid data))

/-- C9: Every row of the returned table before the point where the `p200`
window first fills (0-based index `i` with `i + 1 < p200`, i.e. `i < p200 - 1`)
has signal `0`, because `sma200` is undefined there and a nonzero signal needs
all three SMAs defined. -/
theorem C9_warmup_signal_zero (data : List Bar) (p20 p50 p200 : Nat)
    (rows : List SignalRow)
    (hok : calculate_triple_sma_enhanced data p20 p50 p200 = Except.ok rows)
    (i : Nat) (h : i < rows.length) (hp : i + 1 < p200) :
    rows[i].signal = 0 := by
  have hrows := enhanced_ok_eq data p20 p50 p200 rows hok
  subst hrows
  have hlen : i < ((sortByDate (filterValid data)).map Bar.close).length := by
    rw [List.length_map]
    have h2 := h
    rw [buildTable_length] at h2
    exact h2
  rw [buildTable_getElem _ _ _ _ _ h]
  dsimp only
  rw [signalCol_getD _ _ _ _ _ hlen, rollingMean_getD_none _ _ _ hlen hp]
  exact smaSignal_none _ _ _

/-- C3: The calculator reports insufficient data exactly when the raw input
series has fewer than `p200` bars: with `len(data) < p200` the call returns
the insufficient-data error, and with `len(data) ≥ p200` that error is never
produced (whatever else the call returns). -/
theorem C3_insufficient_data_iff (data : List Bar) (p20 p50 p200 : Nat) :
    (data.length < p200 →
      calculate_triple_sma_enhanced data p20 p50 p200 =
        Except.error CalcError.insufficientData) ∧
    (p200 ≤ data.length →
      calculate_triple_sma_enhanced data p20 p50 p200 ≠
        Except.error CalcError.insufficientData) := by
  constructor
  · intro h
    simp [calculate_triple_sma_enhanced, h]
  · intro h
    simp only [calculate_triple_sma_enhanced]
    rw [if_neg (by omega)]
    split_ifs <;> simp

/-! ### Filtering and emptiness helpers -/

theorem filterValid_eq_self (data : List Bar) (hvalid : ∀ b ∈ data, validBar b = true) :
    filterValid data = data := by
  have hp : ∀ b ∈ data, positivePrices b = true := by
    intro b hb
    have hv := hvalid b hb
    simp only [validBar, Bool.and_eq_true] at hv
    exact hv.1.1
  have hh : ∀ b ∈ data, highGeLow b = true := by
    intro b hb
    have hv := hvalid b hb
    simp only [validBar, Bool.and_eq_true] at hv
    exact hv.1.2
  have hc : ∀ b ∈ data, closeInRange b = true := by
    intro b hb
    have hv := hvalid b hb
    simp only [validBar, Bool.and_eq_true] at hv
    exact hv.2
  unfold filterValid
  rw [List.filter_eq_self.mpr hp, List.filter_eq_self.mpr hh, List.filter_eq_self.mpr hc]

theorem isEmpty_false_of_mem {α : Type} (l : List α) (a : α) (ha : a ∈ l) :
    l.isEmpty = false := by
  cases l
  · cases ha
  · rfl

/-! ### Claim theorems: output shape, warm SMA column, raw-length check -/

/-- C7: For an input of at least 200 bars all satisfying the price invariants,
the call with the default windows succeeds, the returned table has exactly as
many rows as the input (no row is discarded), and every row at index ≥ 200
has a defined `sma200` value. -/
theorem C7_full_length_and_sma200 (data : List Bar)
    (hlen : 200 ≤ data.length) (hvalid : ∀ b ∈ data, validBar b = true) :
    ∃ rows, calculate_triple_sma_enhanced data 20 50 200 = Except.ok rows ∧
      rows.length = data.length ∧
      ∀ i (h : i < rows.length), 200 ≤ i → rows[i].sma200.isSome := by
  have hfe := filterValid_eq_self data hvalid
  have hbl : (buildTable (sortByDate (filterValid data)) 20 50 200).length = data.length := by
    rw [buildTable_length, hfe, sortByDate_length]
  have hclen : ((sortByDate (filterValid data)).map Bar.close).length = data.length := by
    rw [List.length_map, hfe, sortByDate_length]
  have hsma : ∀ i (h : i < (buildTable (sortByDate (filterValid data)) 20 50 200).length),
      200 ≤ i + 1 → (buildTable (sortByDate (filterValid data)) 20 50 200)[i].sma200.isSome := by
    intro i h hge
    have hlc : i < ((sortByDate (filterValid data)).map Bar.close).length := by
      rw [hclen]; rw [hbl] at h; exact h
    rw [buildTable_getElem _ _ _ _ _ h]
    dsimp only
    exact (rollingMean_getD_isSome _ _ _ hlc).mpr hge
  refine ⟨buildTable (sortByDate (filterValid data)) 20 50 200, ?_, hbl, ?_⟩
  · have h199 : 199 < (buildTable (sortByDate (filterValid data)) 20 50 200).length := by
      rw [hbl]; omega
    have hall : hasAllSMAs (buildTable (sortByDate (filterValid data)) 20 50 200)[199] = true := by
      have hlc : 199 < ((sortByDate (filterValid data)).map Bar.close).length := by
        rw [hclen]; omega
      rw [buildTable_getElem _ _ _ _ _ h199]
      simp only [hasAllSMAs, Bool.and_eq_true]
      exact ⟨⟨(rollingMean_getD_isSome _ _ _ hlc).mpr (by omega),
        (rollingMean_getD_isSome _ _ _ hlc).mpr (by omega)⟩,
        (rollingMean_getD_isSome _ _ _ hlc).mpr (by omega)⟩
    have hmem : (buildTable (sortByDate (filterValid data)) 20 50 200)[199] ∈
        (buildTable (sortByDate (filterValid data)) 20 50 200).filter hasAllSMAs :=
      List.mem_filter.mpr ⟨List.getElem_mem h199, hall⟩
    simp only [calculate_triple_sma_enhanced]
    rw [if_neg (by omega)]
    rw [if_neg (by
      rw [hfe]
      intro habs
      rw [List.isEmpty_iff] at habs
      rw [habs] at hlen
      simp at hlen)]
    rw [if_neg (by
      rw [isEmpty_false_of_mem _ _ hmem]
      simp)]
  · intro i h hge
    exact hsma i h (by omega)

/-- C10 (amended): The insufficient-data check compares the raw, unfiltered
input length against `p200`, so an input of at least `p200` rows of which
fewer than `p200` survive the price-invariant filters never produces the
insufficient-data error; but instead of returning a table whose `sma200`
column is entirely undefined, the call fails to return a table at all (the
quality report indexes the first row of the then-empty fully-defined subset,
an `IndexError` in the source). -/
theorem C10_raw_length_check (data : List Bar) (p20 p50 p200 : Nat)
    (hraw : p200 ≤ data.length) (hfilt : (filterValid data).length < p200) :
    calculate_triple_sma_enhanced data p20 p50 p200 ≠
      Except.error CalcError.insufficientData ∧
    ∀ t, calculate_triple_sma_enhanced data p20 p50 p200 ≠ Except.ok t := by
  simp only [calculate_triple_sma_enhanced]
  rw [if_neg (by omega)]
  by_cases he : (filterValid data).isEmpty
  · rw [if_pos he]
    exact ⟨by simp, by intro t; simp⟩
  · rw [if_neg he]
    have hall : (buildTable (sortByDate (filterValid data)) p20 p50 p200).filter
        hasAllSMAs = [] := by
      apply List.filter_eq_nil_iff.mpr
      intro r hr
      obtain ⟨i, hlt, heq⟩ := List.mem_iff_getElem.mp hr
      have hlc : i < ((sortByDate (filterValid data)).map Bar.close).length := by
        rw [List.length_map, sortByDate_length]
        rw [buildTable_length, sortByDate_length] at hlt
        exact hlt
      have hip : i + 1 < p200 ∨ i + 1 = p200 ∨ p200 < i + 1 := by omega
      have hiw : i + 1 ≤ (filterValid data).length := by
        rw [buildTable_length, sortByDate_length] at hlt
        omega
      rw [← heq, buildTable_getElem _ _ _ _ _ hlt]
      simp only [hasAllSMAs, Bool.and_eq_true, not_and]
      intro h20 h50
      rw [rollingMean_getD_none p200 _ _ hlc (by omega)] at h50
      simp at h50
    rw [if_pos (by rw [hall]; rfl)]
    exact ⟨by simp, by intro t; simp⟩

/-! ### Claim theorems: memoization -/

theorem find?_cache_spec (cache : SmaCache) (k : SmaKey)
    (e : SmaKey × Except CalcError (List SignalRow)) (hc : CacheCoherent cache)
    (hfind : cache.find? (fun e => decide (e.1 = k)) = some e) :
    e.1 = k ∧ e.2 = runKey k := by
  have hmem := List.mem_of_find?_eq_some hfind
  have hkey : e.1 = k := by
    have hp := List.find?_some hfind
    simpa using hp
  have he2 : e.2 = runKey e.1 := hc e.1 e.2 (by simpa using hmem)
  exact ⟨hkey, by rw [he2, hkey]⟩

theorem lru_cache_result (cache : SmaCache) (k : SmaKey) (hc : CacheCoherent cache) :
    (lru_cache_call cache k).1 = runKey k := by
  unfold lru_cache_call cacheLookup
  cases hfind : cache.find? (fun e => decide (e.1 = k)) with
  | none => rfl
  | some e =>
    have hspec := find?_cache_spec cache k e hc hfind
    simpa using hspec.2

theorem lru_cache_coherent (cache : SmaCache) (k : SmaKey) (hc : CacheCoherent cache) :
    CacheCoherent (lru_cache_call cache k).2 := by
  unfold lru_cache_call cacheLookup
  cases hfind : cache.find? (fun e => decide (e.1 = k)) with
  | none =>
    intro k2 r2 hmem
    simp only at hmem
    have hmem2 : (k2, r2) ∈ (k, runKey k) :: cache := List.mem_of_mem_take hmem
    rcases List.mem_cons.mp hmem2 with heq | hmem3
    · have h1 : k2 = k ∧ r2 = runKey k := by
        constructor
        · exact congrArg Prod.fst heq
        · exact congrArg Prod.snd heq
      rw [h1.2, h1.1]
    · exact hc k2 r2 hmem3
  | some e =>
    intro k2 r2 hmem
    simp only at hmem
    have hspec := find?_cache_spec cache k e hc hfind
    rcases List.mem_cons.mp hmem with heq | hmem3
    · have h1 : k2 = k ∧ r2 = e.2 := by
        constructor
        · exact congrArg Prod.fst heq
        · exact congrArg Prod.snd heq
      rw [h1.2, h1.1, hspec.2]
    · exact hc k2 r2 (List.mem_of_mem_filter hmem3)

/-- C6: The memoized calculator is idempotent and the cache never alters the
result: starting from any coherent cache state, a call returns exactly what
the uncached computation returns, and an immediately repeated call with an
equal key returns the identical output. -/
theorem C6_memoization_idempotent (cache : SmaCache) (k : SmaKey)
    (hc : CacheCoherent cache) :
    (lru_cache_call cache k).1 =
      calculate_triple_sma_enhanced k.data k.p20 k.p50 k.p200 ∧
    (lru_cache_call (lru_cache_call cache k).2 k).1 = (lru_cache_call cache k).1 := by
  have h1 := lru_cache_result cache k hc
  have h2 := lru_cache_result (lru_cache_call cache k).2 k (lru_cache_coherent cache k hc)
  exact ⟨h1, h2.trans h1.symm⟩

/-! ### Claim theorem: the reachability probe -/

/-- C8: Every call of the reachability probe, whatever the socket outcome,
appends exactly one entry to the connection history and returns a pair (the
function is total, mirroring the catch-all exception handling); when the host
is unreachable (any non-success outcome) it returns `ok = false` together
with a message carrying the prefix that names the failure kind. -/
theorem C8_reachability_logging (history : List ConnAttempt) (host : String)
    (port tmo now : Nat) (outcome : SockOutcome) :
    ((test_network_connection history host port tmo now outcome).1.length =
      history.length + 1) ∧
    (isSuccessOutcome outcome = false →
      (test_network_connection history host port tmo now outcome).2.1 = false ∧
      ∃ p rest, failureKindPrefix outcome = some p ∧
        (test_network_connection history host port tmo now outcome).2.2 = p ++ rest) := by
  cases outcome with
  | success lat =>
    refine ⟨by simp [test_network_connection], ?_⟩
    intro hfail
    simp [isSuccessOutcome] at hfail
  | gaierror m =>
    refine ⟨by simp [test_network_connection], fun hfail => ⟨rfl, ?_⟩⟩
    exact ⟨"DNS resolution failed: ", m, rfl, rfl⟩
  | sockTimeout =>
    refine ⟨by simp [test_network_connection], fun hfail => ⟨rfl, ?_⟩⟩
    refine ⟨"Connection timeout after ", toString tmo ++ "s", rfl, ?_⟩
    simp [test_network_connection, String.append_assoc]
  | otherErr m =>
    refine ⟨by simp [test_network_connection], fun hfail => ⟨rfl, ?_⟩⟩
    exact ⟨"Connection failed: ", m, rfl, rfl⟩

/-! ### Evaluations of the calculator on the sample inputs -/

theorem enhanced_dataA :
    calculate_triple_sma_enhanced dataA 1 1 1 = Except.ok rowsA := by
  norm_num [calculate_triple_sma_enhanced, dataA, rowsA, filterValid, positivePrices,
    highGeLow, closeInRange, sortByDate, insertByDate, buildTable, rollingMean,
    signalCol, smaSignal, pctChange, shiftSignal, strategyReturns, hasAllSMAs,
    List.range_succ, List.filter]

theorem enhanced_dataB :
    calculate_triple_sma_enhanced dataB 1 1 1 = Except.ok rowsB := by
  norm_num [calculate_triple_sma_enhanced, dataB, rowsB, filterValid, positivePrices,
    highGeLow, closeInRange, sortByDate, insertByDate, buildTable, rollingMean,
    signalCol, smaSignal, pctChange, shiftSignal, strategyReturns, hasAllSMAs,
    List.range_succ, List.filter]

theorem enhanced_dataC :
    calculate_triple_sma_enhanced dataC 1 1 2 = Except.ok rowsC := by
  norm_num [calculate_triple_sma_enhanced, dataC, rowsC, filterValid, positivePrices,
    highGeLow, closeInRange, sortByDate, insertByDate, buildTable, rollingMean,
    signalCol, smaSignal, pctChange, shiftSignal, strategyReturns, hasAllSMAs,
    List.range_succ, List.filter]

theorem enhanced_dataE :
    calculate_triple_sma_enhanced dataE 1 1 2 =
      Except.error CalcError.emptyValidRange := by
  norm_num [calculate_triple_sma_enhanced, dataE, filterValid, positivePrices,
    highGeLow, closeInRange, sortByDate, insertByDate, buildTable, rollingMean,
    signalCol, smaSignal, pctChange, shiftSignal, strategyReturns, hasAllSMAs,
    List.range_succ, List.filter]


/-! ### Counterexample and witnesses -/

/-- C10 counterexample: on the concrete input `dataE` (2 raw bars, only 1 of
which is price-valid, `p200 = 2`) the call indeed avoids the insufficient-data
error, but it does not return any table — so in particular it does not return
a table whose `sma200` column is entirely undefined, refuting the claim as
stated. -/
theorem C10_counterexample :
    calculate_triple_sma_enhanced dataE 1 1 2 =
      Except.error CalcError.emptyValidRange ∧
    ¬ ∃ t, calculate_triple_sma_enhanced dataE 1 1 2 = Except.ok t ∧
      ∀ r ∈ t, r.sma200 = none := by
  refine ⟨enhanced_dataE, ?_⟩
  rintro ⟨t, ht, hall⟩
  rw [enhanced_dataE] at ht
  exact absurd ht (by simp)

theorem C1_signal_trichotomy_witness :
    ((rowsA.getD 0 default).signal = 1 ∨ (rowsA.getD 0 default).signal = 0 ∨
      (rowsA.getD 0 default).signal = -1) ∧
    ((rowsA.getD 0 default).signal = 1 ↔ ∃ a b d,
      (rowsA.getD 0 default).sma20 = some a ∧ (rowsA.getD 0 default).sma50 = some b ∧
      (rowsA.getD 0 default).sma200 = some d ∧
      a < (rowsA.getD 0 default).close ∧ b < a ∧ d < b) ∧
    ((rowsA.getD 0 default).signal = -1 ↔ ∃ a b d,
      (rowsA.getD 0 default).sma20 = some a ∧ (rowsA.getD 0 default).sma50 = some b ∧
      (rowsA.getD 0 default).sma200 = some d ∧
      (rowsA.getD 0 default).close < a ∧ a < b ∧ b < d) := by
  have hlen : 0 < rowsA.length := by norm_num [rowsA]
  rw [List.getD_eq_getElem rowsA default hlen]
  exact C1_signal_trichotomy dataA 1 1 1 rowsA enhanced_dataA 0 hlen

theorem C2_strategy_return_lag_witness :
    (rowsB.getD 0 default).strategy_returns = 0 ∧
    (rowsB.getD 1 default).strategy_returns =
      ((rowsB.getD 0 default).signal : ℚ) *
        ((rowsB.getD 1 default).close / (rowsB.getD 0 default).close - 1) := by
  have h0 : 0 < rowsB.length := by norm_num [rowsB]
  have h1 : 1 < rowsB.length := by norm_num [rowsB]
  have h := C2_strategy_return_lag dataB 1 1 1 rowsB enhanced_dataB
  rw [List.getD_eq_getElem rowsB default h0, List.getD_eq_getElem rowsB default h1]
  exact ⟨h.1 h0, h.2 0 h1⟩

theorem C3_insufficient_data_iff_witness :
    calculate_triple_sma_enhanced [] 1 1 1 =
      Except.error CalcError.insufficientData ∧
    calculate_triple_sma_enhanced dataA 1 1 1 ≠
      Except.error CalcError.insufficientData :=
  ⟨(C3_insufficient_data_iff [] 1 1 1).1 (by simp),
   (C3_insufficient_data_iff dataA 1 1 1).2 (by norm_num [dataA])⟩

theorem C4_full_window_only_witness :
    ((rowsA.getD 0 default).sma20.isSome ↔ 1 ≤ 0 + 1) ∧
    ((rowsA.getD 0 default).sma50.isSome ↔ 1 ≤ 0 + 1) ∧
    ((rowsA.getD 0 default).sma200.isSome ↔ 1 ≤ 0 + 1) := by
  have hlen : 0 < rowsA.length := by norm_num [rowsA]
  rw [List.getD_eq_getElem rowsA default hlen]
  exact C4_full_window_only dataA 1 1 1 rowsA enhanced_dataA 0 hlen

theorem C5_rows_sorted_witness :
    calculate_triple_sma_enhanced dataB 1 1 1 = Except.ok rowsB ∧
    (rowsB.map SignalRow.date).Sorted (· ≤ ·) :=
  ⟨enhanced_dataB, C5_rows_sorted dataB 1 1 1 rowsB enhanced_dataB⟩

theorem C6_memoization_idempotent_witness :
    (lru_cache_call [] keyA).1 =
      calculate_triple_sma_enhanced keyA.data keyA.p20 keyA.p50 keyA.p200 ∧
    (lru_cache_call (lru_cache_call [] keyA).2 keyA).1 =
      (lru_cache_call [] keyA).1 :=
  C6_memoization_idempotent [] keyA
    (by intro k r h; exact absurd h (List.not_mem_nil _))

theorem C7_full_length_and_sma200_witness :
    ∃ rows, calculate_triple_sma_enhanced dataD 20 50 200 = Except.ok rows ∧
      rows.length = dataD.length ∧
      ∀ i (h : i < rows.length), 200 ≤ i → rows[i].sma200.isSome :=
  C7_full_length_and_sma200 dataD
    (by
      have hl : dataD.length = 200 := by simp [dataD]
      omega)
    (by
    intro b hb
    simp only [dataD, List.mem_map, List.mem_range] at hb
    obtain ⟨j, hj, rfl⟩ := hb
    norm_num [validBar, positivePrices, highGeLow, closeInRange])

theorem C8_reachability_logging_witness :
    ((test_network_connection [] "host" 1 10 0 SockOutcome.sockTimeout).1.length =
      List.length ([] : List ConnAttempt) + 1) ∧
    ((test_network_connection [] "host" 1 10 0 SockOutcome.sockTimeout).2.1 = false ∧
      ∃ p rest, failureKindPrefix SockOutcome.sockTimeout = some p ∧
        (test_network_connection [] "host" 1 10 0 SockOutcome.sockTimeout).2.2 =
          p ++ rest) := by
  have h := C8_reachability_logging [] "host" 1 10 0 SockOutcome.sockTimeout
  exact ⟨h.1, h.2 rfl⟩

theorem C9_warmup_signal_zero_witness :
    (rowsC.getD 0 default).signal = 0 := by
  have h0 : 0 < rowsC.length := by norm_num [rowsC]
  rw [List.getD_eq_getElem rowsC default h0]
  exact C9_warmup_signal_zero dataC 1 1 2 rowsC enhanced_dataC 0 h0 (by norm_num)

theorem C10_raw_length_check_witness :
    calculate_triple_sma_enhanced dataE 1 1 2 ≠
      Except.error CalcError.insufficientData ∧
    ∀ t, calculate_triple_sma_enhanced dataE 1 1 2 ≠ Except.ok t :=
  C10_raw_length_check dataE 1 1 2 (by norm_num [dataE])
    (by norm_num [filterValid, dataE, positivePrices, highGeLow, closeInRange,
      List.filter])
